import Mathlib

/-!
Verification of the core of the SRT audio sync tool (`ghepvoice.py`).

The development shallowly embeds the pure content of the Python source:

* timestamps and durations are modelled as exact rationals (`ℚ`); the Python
  code uses IEEE doubles, but every claim under study is about exact
  arithmetic identities that the double computation implements;
* `parse_srt_time` (source lines 127–139) is modelled as a function on
  `List Char`; the two `re.match` calls are embedded as explicit
  prefix-anchored matchers with the same greedy-with-backtracking behaviour
  as the regexes `(\d{1,2}):(\d{2}):(\d{2})\.(\d{3})` and
  `(\d{1,2}):(\d{2}):(\d{2})`.  `\d` is modelled as an ASCII digit and
  `str.strip` as stripping the ASCII whitespace characters; the Python
  originals additionally accept non-ASCII Unicode digits/whitespace, which
  no claim exercises;
* file-system interaction (`os.listdir`, `os.path.isfile`) is modelled by
  passing the directory listing explicitly as data;
* the external ffmpeg/ffprobe engine is a collaborator: only the pure
  arguments computed for it (filter chains, silence durations, the concat
  manifest) are modelled.
-/

namespace GhepVoice

/-! ## Definitions -/

/-- ASCII whitespace stripped by Python `str.strip()` (space, `\t`, `\n`,
`\r`, `\x0b`, `\x0c`). -/
def pyWhitespace (c : Char) : Bool :=
  c = ' ' || c = '\t' || c = '\n' || c = '\r' || c = '\x0b' || c = '\x0c'

/-- Python `str.strip()`: drop leading and trailing whitespace. -/
def pyStrip (cs : List Char) : List Char :=
  ((cs.dropWhile pyWhitespace).reverse.dropWhile pyWhitespace).reverse

/-- Python `time_str.replace(",", ".")` from source line 129. -/
def replaceCommas (cs : List Char) : List Char :=
  cs.map (fun c => if c = ',' then '.' else c)

/-- Numeric value of an ASCII digit character. -/
def digitVal (c : Char) : ℕ := c.toNat - 48

/-- Value of a decimal digit string, as Python `int` on a digit string. -/
def digitsToNat (cs : List Char) : ℕ :=
  cs.foldl (fun a c => 10 * a + digitVal c) 0

/-- The part of the regex `(\d{1,2}):(\d{2}):(\d{2})\.(\d{3})` after the
hour group: consumes `:MM:SS.mmm` at the head of the list (trailing
characters are allowed, as with `re.match`). -/
def matchFracTail (h : ℕ) : List Char → Option (ℕ × ℕ × ℕ × ℕ)
  | c0 :: m1 :: m2 :: c1 :: s1 :: s2 :: c2 :: d1 :: d2 :: d3 :: _ =>
    if c0 = ':' ∧ m1.isDigit ∧ m2.isDigit ∧ c1 = ':' ∧ s1.isDigit ∧ s2.isDigit
        ∧ c2 = '.' ∧ d1.isDigit ∧ d2.isDigit ∧ d3.isDigit then
      some (h, 10 * digitVal m1 + digitVal m2, 10 * digitVal s1 + digitVal s2,
        100 * digitVal d1 + 10 * digitVal d2 + digitVal d3)
    else
      none
  | _ => none

/-- `re.match(r"(\d{1,2}):(\d{2}):(\d{2})\.(\d{3})", ·)` (source line 130):
the greedy `\d{1,2}` first tries two digits for the hour group and
backtracks to one digit if the remainder does not match. -/
def matchFrac : List Char → Option (ℕ × ℕ × ℕ × ℕ)
  | c1 :: c2 :: rest =>
    if c1.isDigit then
      if c2.isDigit then
        match matchFracTail (10 * digitVal c1 + digitVal c2) rest with
        | some v => some v
        | none => matchFracTail (digitVal c1) (c2 :: rest)
      else
        matchFracTail (digitVal c1) (c2 :: rest)
    else
      none
  | _ => none

/-- The part of the regex `(\d{1,2}):(\d{2}):(\d{2})` after the hour group:
consumes `:MM:SS` at the head of the list. -/
def matchPlainTail (h : ℕ) : List Char → Option (ℕ × ℕ × ℕ)
  | c0 :: m1 :: m2 :: c1 :: s1 :: s2 :: _ =>
    if c0 = ':' ∧ m1.isDigit ∧ m2.isDigit ∧ c1 = ':' ∧ s1.isDigit ∧ s2.isDigit then
      some (h, 10 * digitVal m1 + digitVal m2, 10 * digitVal s1 + digitVal s2)
    else
      none
  | _ => none

/-- `re.match(r"(\d{1,2}):(\d{2}):(\d{2})", ·)` (source line 132). -/
def matchPlain : List Char → Option (ℕ × ℕ × ℕ) :=
  fun cs =>
    match cs with
    | c1 :: c2 :: rest =>
      if c1.isDigit then
        if c2.isDigit then
          match matchPlainTail (10 * digitVal c1 + digitVal c2) rest with
          | some v => some v
          | none => matchPlainTail (digitVal c1) (c2 :: rest)
        else
          matchPlainTail (digitVal c1) (c2 :: rest)
      else
        none
    | _ => none

/-- Seconds value computed by the fractional branch of `parse_srt_time`
(source line 139): `h*3600 + m*60 + s + ms/1000`. -/
def fracSeconds (v : ℕ × ℕ × ℕ × ℕ) : ℚ :=
  (v.1 : ℚ) * 3600 + (v.2.1 : ℚ) * 60 + (v.2.2.1 : ℚ) + (v.2.2.2 : ℚ) / 1000

/-- Seconds value computed by the no-fraction branch of `parse_srt_time`
(source line 135): `h*3600 + m*60 + s`. -/
def plainSeconds (v : ℕ × ℕ × ℕ) : ℚ :=
  (v.1 : ℚ) * 3600 + (v.2.1 : ℚ) * 60 + (v.2.2 : ℚ)

/-- `parse_srt_time` (source lines 127–139) on a character list.  The input
is stripped, commas are replaced by dots, then the fractional pattern is
tried, then the plain pattern; `none` models the raised `ValueError`. -/
def parse_srt_time_list (cs : List Char) : Option ℚ :=
  let t := replaceCommas (pyStrip cs)
  match matchFrac t with
  | some v => some (fracSeconds v)
  | none =>
    match matchPlain t with
    | some v => some (plainSeconds v)
    | none => none

/-- `parse_srt_time` on a `String`. -/
def parse_srt_time (s : String) : Option ℚ :=
  parse_srt_time_list s.toList

/-- A character list whose head matches `(\d{1,2}):(\d{2}):(\d{2})\.(\d{3})`
(the regex alternates between a one-digit and a two-digit hour group;
trailing characters `rest` are unconstrained, as with `re.match`). -/
def FracHead (cs : List Char) : Prop :=
  (∃ a m1 m2 s1 s2 d1 d2 d3 rest, a.isDigit ∧ m1.isDigit ∧ m2.isDigit ∧
    s1.isDigit ∧ s2.isDigit ∧ d1.isDigit ∧ d2.isDigit ∧ d3.isDigit ∧
    cs = a :: ':' :: m1 :: m2 :: ':' :: s1 :: s2 :: '.' :: d1 :: d2 :: d3 :: rest) ∨
  (∃ a b m1 m2 s1 s2 d1 d2 d3 rest, a.isDigit ∧ b.isDigit ∧ m1.isDigit ∧ m2.isDigit ∧
    s1.isDigit ∧ s2.isDigit ∧ d1.isDigit ∧ d2.isDigit ∧ d3.isDigit ∧
    cs = a :: b :: ':' :: m1 :: m2 :: ':' :: s1 :: s2 :: '.' :: d1 :: d2 :: d3 :: rest)

/-- A character list whose head matches `(\d{1,2}):(\d{2}):(\d{2})`. -/
def PlainHead (cs : List Char) : Prop :=
  (∃ a m1 m2 s1 s2 rest, a.isDigit ∧ m1.isDigit ∧ m2.isDigit ∧ s1.isDigit ∧ s2.isDigit ∧
    cs = a :: ':' :: m1 :: m2 :: ':' :: s1 :: s2 :: rest) ∨
  (∃ a b m1 m2 s1 s2 rest, a.isDigit ∧ b.isDigit ∧ m1.isDigit ∧ m2.isDigit ∧
    s1.isDigit ∧ s2.isDigit ∧
    cs = a :: b :: ':' :: m1 :: m2 :: ':' :: s1 :: s2 :: rest)

/-- The exact shape of a timestamp captured by the block pattern of
`parse_srt_file` (source line 149): `\d{1,2}:\d{2}:\d{2}[,\.]\d{3}`, the
separator being a comma or a dot, and nothing after the third fractional
digit (a capture of that sub-pattern is exactly such a string). -/
def BlockTimeShape (cs : List Char) : Prop :=
  (∃ a m1 m2 s1 s2 sep d1 d2 d3, a.isDigit ∧ m1.isDigit ∧ m2.isDigit ∧
    s1.isDigit ∧ s2.isDigit ∧ (sep = '.' ∨ sep = ',') ∧ d1.isDigit ∧ d2.isDigit ∧
    d3.isDigit ∧ cs = [a, ':', m1, m2, ':', s1, s2, sep, d1, d2, d3]) ∨
  (∃ a b m1 m2 s1 s2 sep d1 d2 d3, a.isDigit ∧ b.isDigit ∧ m1.isDigit ∧ m2.isDigit ∧
    s1.isDigit ∧ s2.isDigit ∧ (sep = '.' ∨ sep = ',') ∧ d1.isDigit ∧ d2.isDigit ∧
    d3.isDigit ∧ cs = [a, b, ':', m1, m2, ':', s1, s2, sep, d1, d2, d3])

/-- The exact shape of a plain `H:MM:SS` timestamp (no fractional part,
nothing after the seconds). -/
def PlainExactShape (cs : List Char) : Prop :=
  (∃ a m1 m2 s1 s2, a.isDigit ∧ m1.isDigit ∧ m2.isDigit ∧ s1.isDigit ∧ s2.isDigit ∧
    cs = [a, ':', m1, m2, ':', s1, s2]) ∨
  (∃ a b m1 m2 s1 s2, a.isDigit ∧ b.isDigit ∧ m1.isDigit ∧ m2.isDigit ∧
    s1.isDigit ∧ s2.isDigit ∧ cs = [a, b, ':', m1, m2, ':', s1, s2])

/-- `SubtitleLine` (source lines 102–109). -/
structure SubtitleLine where
  index : ℕ
  start_time : ℚ
  end_time : ℚ
  duration : ℚ
  text : List Char
deriving DecidableEq

/-- One tuple produced by `re.findall` on the cue-block pattern (source
lines 149–150): the decimal value of the index group, the two timestamp
captures and the raw text capture.  The extraction itself performs file
I/O and is abstracted: `parse_srt_file` is modelled as a function of the
extracted block list. -/
structure RawBlock where
  index : ℕ
  start_str : List Char
  end_str : List Char
  text : List Char
deriving DecidableEq

/-- The per-block loop of `parse_srt_file` (source lines 152–165): each
block's timestamps are parsed (a failure of `parse_srt_time` aborts the
whole parse, modelled by `none`) and a `SubtitleLine` is built with
`duration := end_time - start_time` and stripped text. -/
def parse_blocks_loop : List RawBlock → Option (List SubtitleLine)
  | [] => some []
  | b :: rest =>
    match parse_srt_time_list b.start_str, parse_srt_time_list b.end_str with
    | some st, some et =>
      match parse_blocks_loop rest with
      | some subs =>
        some (SubtitleLine.mk b.index st et (et - st) (pyStrip b.text) :: subs)
      | none => none
    | _, _ => none

/-- `parse_srt_file` (source lines 142–168), parameterized by the extracted
block list: build the subtitle list in block order, then sort it by `index`
ascending (`subtitles.sort(key=lambda x: x.index)`, a stable sort, modelled
by the stable `List.mergeSort`). -/
def parse_srt_file_blocks (blocks : List RawBlock) : Option (List SubtitleLine) :=
  (parse_blocks_loop blocks).map
    (fun subs => subs.mergeSort (fun x y => decide (x.index ≤ y.index)))

/-- A one-cue block list used as a concrete input. -/
def exampleBlock : RawBlock :=
  RawBlock.mk 1 "1:00:00".toList "1:00:01".toList ['a']

/-- The subtitle line built from `exampleBlock`. -/
def exampleSub : SubtitleLine :=
  SubtitleLine.mk 1 (plainSeconds (1, 0, 0)) (plainSeconds (1, 0, 1))
    (plainSeconds (1, 0, 1) - plainSeconds (1, 0, 0)) ['a']

/-- `AudioMatch` (source lines 112–120). -/
structure AudioMatch where
  subtitle : SubtitleLine
  audio_path : List Char
  audio_duration : ℚ
  needs_speedup : Bool
  speed_factor : ℚ
  processed_path : Option (List Char) := none
deriving DecidableEq

/-- Construction of an `AudioMatch` in `_sync_thread` (source lines
709–718): `needs_speedup = audio_duration > sub.duration` and
`speed_factor = audio_duration / sub.duration if needs_speedup else 1.0`. -/
def mkAudioMatch (sub : SubtitleLine) (path : List Char) (audio_duration : ℚ) :
    AudioMatch :=
  { subtitle := sub
    audio_path := path
    audio_duration := audio_duration
    needs_speedup := decide (audio_duration > sub.duration)
    speed_factor :=
      if audio_duration > sub.duration then audio_duration / sub.duration else 1
    processed_path := none }

/-- A two-second cue used as a concrete input. -/
def exampleCue : SubtitleLine := SubtitleLine.mk 1 0 2 2 []

/-- The `atempo` chain computed by `process_audio_speed` (source lines
285–298): emit `2.0` and halve while the remaining factor exceeds `2.0`,
emit `0.5` and double while it is below `0.5`, then emit the remaining
factor as the final stage.  The Python second loop does not terminate for a
non-positive factor, so the model adds the guard `0 < s` there to stay
total; all theorems restrict to factors greater than `1`, where the guard
never fires.  (The final stage is rendered into the filter string with six
decimal digits; the chain here carries the exact values of the `speed`
variable.) -/
def atempoChain (s : ℚ) : List ℚ :=
  if h : 2 < s then 2 :: atempoChain (s / 2)
  else if h2 : 0 < s ∧ s < 1 / 2 then (1 / 2 : ℚ) :: atempoChain (s / (1 / 2))
  else [s]
termination_by Nat.ceil s + Nat.ceil s⁻¹
decreasing_by
  · have hpos : (0 : ℚ) < s := lt_trans (by norm_num) h
    have hA : Nat.ceil (s / 2) < Nat.ceil s := by
      have h3 : 3 ≤ Nat.ceil s := Nat.lt_ceil.mpr (by exact_mod_cast h)
      have hle : Nat.ceil (s / 2) ≤ Nat.ceil s - 1 := by
        apply Nat.ceil_le.mpr
        have hcx : s ≤ (Nat.ceil s : ℚ) := Nat.le_ceil s
        have hcast : ((Nat.ceil s - 1 : ℕ) : ℚ) = (Nat.ceil s : ℚ) - 1 := by
          rw [Nat.cast_sub (by omega : 1 ≤ Nat.ceil s)]
          norm_num
        rw [hcast]
        linarith
      omega
    have hB : Nat.ceil (s / 2)⁻¹ ≤ 1 := by
      apply Nat.ceil_le.mpr
      rw [inv_div]
      exact_mod_cast (div_le_one hpos).mpr (le_of_lt h)
    have hC : 1 ≤ Nat.ceil s⁻¹ := Nat.one_le_ceil_iff.mpr (inv_pos.mpr hpos)
    omega
  · obtain ⟨hpos, hlt⟩ := h2
    have he : s / (1 / 2) = 2 * s := by ring
    rw [he]
    have hA : Nat.ceil (2 * s) ≤ 1 := by
      apply Nat.ceil_le.mpr
      exact_mod_cast le_of_lt (by linarith : 2 * s < 1)
    have hinv2 : 2 < s⁻¹ := by
      have k1 : s * s⁻¹ < 1 / 2 * s⁻¹ :=
        mul_lt_mul_of_pos_right hlt (inv_pos.mpr hpos)
      rw [mul_inv_cancel₀ (ne_of_gt hpos)] at k1
      linarith
    have hB : Nat.ceil (2 * s)⁻¹ < Nat.ceil s⁻¹ := by
      have hrw : (2 * s)⁻¹ = s⁻¹ / 2 := by
        rw [mul_inv]
        ring
      rw [hrw]
      have h3 : 3 ≤ Nat.ceil s⁻¹ := Nat.lt_ceil.mpr (by exact_mod_cast hinv2)
      have hle : Nat.ceil (s⁻¹ / 2) ≤ Nat.ceil s⁻¹ - 1 := by
        apply Nat.ceil_le.mpr
        have hcx : s⁻¹ ≤ (Nat.ceil s⁻¹ : ℚ) := Nat.le_ceil s⁻¹
        have hcast : ((Nat.ceil s⁻¹ - 1 : ℕ) : ℚ) = (Nat.ceil s⁻¹ : ℚ) - 1 := by
          rw [Nat.cast_sub (by omega : 1 ≤ Nat.ceil s⁻¹)]
          norm_num
        rw [hcast]
        have h2c : (3 : ℚ) ≤ Nat.ceil s⁻¹ := by exact_mod_cast h3
        linarith
      omega
    have hC : 1 ≤ Nat.ceil s := Nat.one_le_ceil_iff.mpr hpos
    omega

/-- One ordered unit of the final timeline: a synthesized silence span or a
processed clip file. -/
inductive Segment where
  | silence (duration : ℚ)
  | clip (path : List Char)
deriving DecidableEq

/-- The clip segment contributed by one match (source lines 341–342): the
processed path is appended only when truthy (`if match.processed_path:`,
i.e. not `None` and nonempty). -/
def clipSegs (m : AudioMatch) : List Segment :=
  match m.processed_path with
  | some p => if p = [] then [] else [Segment.clip p]
  | none => []

/-- The walk of `create_timeline` (source lines 331–344): keep
`current_time`, insert a silence of `gap_before = start_time - current_time`
when it exceeds `0.01`, append the processed clip, and advance
`current_time` to the cue's `end_time`. -/
def timelineWalk (current_time : ℚ) : List AudioMatch → List Segment
  | [] => []
  | m :: rest =>
    (if m.subtitle.start_time - current_time > 1 / 100 then
      [Segment.silence (m.subtitle.start_time - current_time)]
    else []) ++
    clipSegs m ++ timelineWalk m.subtitle.end_time rest

/-- The segment sequence assembled by `create_timeline` (source lines
325–344): sort by cue start time (`matches.sort(key=...)`, stable), then
walk with `current_time` starting at `0`. -/
def create_timeline_segments (ms : List AudioMatch) : List Segment :=
  timelineWalk 0 (ms.mergeSort
    (fun a b => decide (a.subtitle.start_time ≤ b.subtitle.start_time)))

/-- The claim-side positional description of the walk: the `i`-th match is
preceded by a silence of `startTime i - prevEnd i` exactly when that gap
exceeds `0.01`, where `prevEnd` is `t` for the first match and the previous
match's cue `endTime` afterwards, and is followed by its processed clip. -/
def timelineSpec (t : ℚ) (ms : List AudioMatch) : List Segment :=
  (ms.zip (t :: ms.map (fun m => m.subtitle.end_time))).flatMap
    (fun p =>
      (if p.1.subtitle.start_time - p.2 > 1 / 100 then
        [Segment.silence (p.1.subtitle.start_time - p.2)]
      else []) ++
      [Segment.clip (p.1.processed_path.getD [])])

/-- Matches for the documented example: cues `[0, 1.5]`, `[2, 3]`, `[5, 6]`
with processed clips `p1`, `p2`, `p3`. -/
def exMatch1 : AudioMatch :=
  AudioMatch.mk (SubtitleLine.mk 1 0 (3 / 2) (3 / 2) []) [] (3 / 2) false 1
    (some ['p', '1'])

def exMatch2 : AudioMatch :=
  AudioMatch.mk (SubtitleLine.mk 2 2 3 1 []) [] 1 false 1 (some ['p', '2'])

def exMatch3 : AudioMatch :=
  AudioMatch.mk (SubtitleLine.mk 3 5 6 1 []) [] 1 false 1 (some ['p', '3'])

/-- The single-quote character. -/
def quoteChar : Char := Char.ofNat 39

/-- The backslash character. -/
def backslashChar : Char := Char.ofNat 92

/-- The newline character. -/
def newlineChar : Char := Char.ofNat 10

/-- `seg_file.replace("'", "'\\''")` (source line 349): every single-quote
character becomes the four characters quote, backslash, quote, quote. -/
def escapeQuotes (p : List Char) : List Char :=
  p.flatMap (fun c =>
    if c = quoteChar then [quoteChar, backslashChar, quoteChar, quoteChar] else [c])

/-- The body (without the terminating newline) of one manifest line
`file '<escaped>'` (source line 350). -/
def manifestLineBody (p : List Char) : List Char :=
  'f' :: 'i' :: 'l' :: 'e' :: ' ' :: quoteChar :: (escapeQuotes p ++ [quoteChar])

/-- The concat manifest written by `create_timeline` (source lines
346–350): one newline-terminated line per segment file, in order. -/
def concatManifest (segment_files : List (List Char)) : List Char :=
  segment_files.flatMap (fun p => manifestLineBody p ++ [newlineChar])

/-- One entry of the directory listing returned by `os.listdir`, together
with its `os.path.isfile` status.  The file system is modelled by passing
the listing explicitly; `glob.glob` enumerates the same directory in the
same order. -/
structure DirEntry where
  name : List Char
  isFile : Bool
deriving DecidableEq

/-- The audio-extension whitelist of `find_audio_for_subtitle` (source
lines 195–199), all lowercase with the leading dot. -/
def audio_extensions : List (List Char) :=
  [".wav".toList, ".mp3".toList, ".m4a".toList, ".aac".toList, ".flac".toList,
   ".ogg".toList, ".wma".toList, ".opus".toList, ".webm".toList, ".amr".toList,
   ".3gp".toList, ".ape".toList, ".alac".toList, ".aiff".toList, ".aif".toList,
   ".au".toList, ".ra".toList, ".mid".toList, ".midi".toList]

/-- `os.path.splitext` on a bare file name (no path separators): split at
the last dot, unless every character before it is a dot (so hidden files
like `.bashrc` keep their name whole). -/
def splitext (s : List Char) : List Char × List Char :=
  match s.reverse.findIdx? (fun c => c = '.') with
  | none => (s, [])
  | some k =>
    let dotIdx := s.length - 1 - k
    if (s.take dotIdx).any (fun c => ¬(c = '.')) then (s.take dotIdx, s.drop dotIdx)
    else (s, [])

/-- `str(index).zfill(w)` for the decimal representation of a natural
number: left-pad with zeros to width `w`. -/
def pyZfill (s : List Char) (w : ℕ) : List Char :=
  List.replicate (w - s.length) '0' ++ s

/-- The three index representations tried by `find_audio_for_subtitle`
(source lines 202–206), in priority order: 4-digit zero-padded, 3-digit
zero-padded, unpadded decimal. -/
def index_formats (idx : ℕ) : List (List Char) :=
  [pyZfill (Nat.repr idx).toList 4, pyZfill (Nat.repr idx).toList 3,
    (Nat.repr idx).toList]

/-- `os.path.join` with POSIX separator. -/
def pyJoin (dir name : List Char) : List Char := dir ++ '/' :: name

/-- The directory scan of method 1 (source lines 212–234) for one index
representation: walk the listing in order, skip non-files and non-audio
extensions (case-insensitively), and return the first file whose
name-without-extension equals the representation or starts with the
representation followed by an underscore. -/
def scanFiles (index_str dir : List Char) : List DirEntry → Option (List Char)
  | [] => none
  | e :: rest =>
    if e.isFile then
      if (splitext e.name).2.map Char.toLower ∈ audio_extensions then
        if (splitext e.name).1 = index_str then some (pyJoin dir e.name)
        else if (splitext e.name).1.take (index_str.length + 1) = index_str ++ ['_'] then
          some (pyJoin dir e.name)
        else scanFiles index_str dir rest
      else scanFiles index_str dir rest
    else scanFiles index_str dir rest

/-- Method 1 of `find_audio_for_subtitle`: try the three representations in
order over the directory scan. -/
def find_audio_method1 (idx : ℕ) (dir : List Char) (listing : List DirEntry) :
    Option (List Char) :=
  (index_formats idx).findSome? (fun index_str => scanFiles index_str dir listing)

/-- The extension list used by the glob fallback (source line 240),
without dots. -/
def extensions_list : List (List Char) :=
  ["wav".toList, "mp3".toList, "m4a".toList, "aac".toList, "flac".toList,
   "ogg".toList, "wma".toList, "opus".toList, "webm".toList, "amr".toList,
   "3gp".toList]

/-- `os.path.exists`: some entry (file or directory) has this name. -/
def existsName (listing : List DirEntry) (name : List Char) : Bool :=
  listing.any (fun e => e.name = name)

/-- Whether a name matches the glob pattern `<pre>*<suf>` (the star spans
at least zero characters). -/
def globMatch (pre suf name : List Char) : Bool :=
  decide (pre.length + suf.length ≤ name.length) &&
    decide (name.take pre.length = pre) &&
    decide (name.drop (name.length - suf.length) = suf)

/-- The per-extension loop of the glob fallback (source lines 242–259):
exact name, exact name with upper-cased extension, then the suffixed glob
`<rep>_*.<ext>` (whose hits are returned without an `isfile` check, as in
the source). -/
def method2ForExt (rep dir : List Char) (listing : List DirEntry) :
    List (List Char) → Option (List Char)
  | [] => none
  | ext :: restExts =>
    if existsName listing (rep ++ '.' :: ext) then
      some (pyJoin dir (rep ++ '.' :: ext))
    else if existsName listing (rep ++ '.' :: ext.map Char.toUpper) then
      some (pyJoin dir (rep ++ '.' :: ext.map Char.toUpper))
    else
      match (listing.filter (fun e => globMatch (rep ++ ['_']) ('.' :: ext) e.name)).head? with
      | some e => some (pyJoin dir e.name)
      | none => method2ForExt rep dir listing restExts

/-- The wildcard-extension scan of the glob fallback (source lines
261–268): glob `<rep>.*`, keep regular files whose extension is
whitelisted. -/
def method2AnyScan (rep dir : List Char) : List DirEntry → Option (List Char)
  | [] => none
  | e :: rest =>
    if globMatch (rep ++ ['.']) [] e.name then
      if e.isFile then
        if (splitext e.name).2.map Char.toLower ∈ audio_extensions then
          some (pyJoin dir e.name)
        else method2AnyScan rep dir rest
      else method2AnyScan rep dir rest
    else method2AnyScan rep dir rest

/-- One representation's pass of the glob fallback. -/
def method2ForRep (rep dir : List Char) (listing : List DirEntry) :
    Option (List Char) :=
  match method2ForExt rep dir listing extensions_list with
  | some p => some p
  | none => method2AnyScan rep dir listing

/-- Method 2 of `find_audio_for_subtitle` (source lines 239–268). -/
def find_audio_method2 (idx : ℕ) (dir : List Char) (listing : List DirEntry) :
    Option (List Char) :=
  (index_formats idx).findSome? (fun rep => method2ForRep rep dir listing)

/-- `find_audio_for_subtitle` (source lines 183–270): the directory scan,
then the glob fallback when the scan found nothing. -/
def find_audio_for_subtitle (idx : ℕ) (dir : List Char) (listing : List DirEntry) :
    Option (List Char) :=
  match find_audio_method1 idx dir listing with
  | some p => some p
  | none => find_audio_method2 idx dir listing

/-- The matcher predicate of the claim: a regular file with whitelisted
extension (case-insensitive) whose name-without-extension equals the
representation or starts with the representation plus `"_"`. -/
def locatorAccepts (rep : List Char) (e : DirEntry) : Bool :=
  e.isFile && decide ((splitext e.name).2.map Char.toLower ∈ audio_extensions) &&
    (decide ((splitext e.name).1 = rep) ||
      decide ((splitext e.name).1.take (rep.length + 1) = rep ++ ['_']))

/-- The claim-side description of the scan: flatten the candidates in
representation-major, listing-minor order and take the first. -/
def locatorSpec (idx : ℕ) (dir : List Char) (listing : List DirEntry) :
    Option (List Char) :=
  (((index_formats idx).flatMap
    (fun rep => listing.filter (locatorAccepts rep))).head?).map
    (fun e => pyJoin dir e.name)

/-! ## Theorems -/

example : parse_srt_time "01:02:03,456" = some (3723456 / 1000) := by
  have h : parse_srt_time "01:02:03,456" = some (fracSeconds (1, 2, 3, 456)) := rfl
  rw [h]; norm_num [fracSeconds]

example : parse_srt_time "1:00:00" = some 3600 := by
  have h : parse_srt_time "1:00:00" = some (plainSeconds (1, 0, 0)) := rfl
  rw [h]; norm_num [plainSeconds]

example : parse_srt_time "01:02:03.45" = some 3723 := by
  have h : parse_srt_time "01:02:03.45" = some (plainSeconds (1, 2, 3)) := rfl
  rw [h]; norm_num [plainSeconds]

example : parse_srt_time "xx" = none := by decide

lemma colon_not_digit : (':' : Char).isDigit = false := by decide

lemma matchFracTail_eq_some (h : ℕ) (m1 m2 s1 s2 d1 d2 d3 : Char) (rest : List Char)
    (hm1 : m1.isDigit) (hm2 : m2.isDigit) (hs1 : s1.isDigit) (hs2 : s2.isDigit)
    (hd1 : d1.isDigit) (hd2 : d2.isDigit) (hd3 : d3.isDigit) :
    matchFracTail h (':' :: m1 :: m2 :: ':' :: s1 :: s2 :: '.' :: d1 :: d2 :: d3 :: rest) =
      some (h, 10 * digitVal m1 + digitVal m2, 10 * digitVal s1 + digitVal s2,
        100 * digitVal d1 + 10 * digitVal d2 + digitVal d3) := by
  simp [matchFracTail, hm1, hm2, hs1, hs2, hd1, hd2, hd3]

lemma matchPlainTail_eq_some (h : ℕ) (m1 m2 s1 s2 : Char) (rest : List Char)
    (hm1 : m1.isDigit) (hm2 : m2.isDigit) (hs1 : s1.isDigit) (hs2 : s2.isDigit) :
    matchPlainTail h (':' :: m1 :: m2 :: ':' :: s1 :: s2 :: rest) =
      some (h, 10 * digitVal m1 + digitVal m2, 10 * digitVal s1 + digitVal s2) := by
  simp [matchPlainTail, hm1, hm2, hs1, hs2]

/-- A list starting with a digit never matches the `:MM:SS.mmm` tail. -/
lemma matchFracTail_digit_head (h : ℕ) (c : Char) (rest : List Char)
    (hc : c.isDigit) : matchFracTail h (c :: rest) = none := by
  have hne : c ≠ ':' := by
    intro he
    rw [he] at hc
    exact absurd hc (by decide)
  unfold matchFracTail
  split
  · next m1 m2 c1 s1 s2 c2 d1 d2 d3 tl heq =>
    rw [if_neg]
    intro hand
    rcases List.cons.injEq .. ▸ heq with ⟨h1, _⟩
    exact hne (h1 ▸ hand.1)
  · rfl

/-- A list starting with a digit never matches the `:MM:SS` tail. -/
lemma matchPlainTail_digit_head (h : ℕ) (c : Char) (rest : List Char)
    (hc : c.isDigit) : matchPlainTail h (c :: rest) = none := by
  have hne : c ≠ ':' := by
    intro he
    rw [he] at hc
    exact absurd hc (by decide)
  unfold matchPlainTail
  split
  · next m1 m2 c1 s1 s2 tl heq =>
    rw [if_neg]
    intro hand
    rcases List.cons.injEq .. ▸ heq with ⟨h1, _⟩
    exact hne (h1 ▸ hand.1)
  · rfl

/-- The fractional matcher succeeds, with the expected groups, on the
one-digit-hour shape. -/
lemma matchFrac_shape1 (a m1 m2 s1 s2 d1 d2 d3 : Char) (rest : List Char)
    (ha : a.isDigit) (hm1 : m1.isDigit) (hm2 : m2.isDigit) (hs1 : s1.isDigit)
    (hs2 : s2.isDigit) (hd1 : d1.isDigit) (hd2 : d2.isDigit) (hd3 : d3.isDigit) :
    matchFrac (a :: ':' :: m1 :: m2 :: ':' :: s1 :: s2 :: '.' :: d1 :: d2 :: d3 :: rest) =
      some (digitVal a, 10 * digitVal m1 + digitVal m2, 10 * digitVal s1 + digitVal s2,
        100 * digitVal d1 + 10 * digitVal d2 + digitVal d3) := by
  simp only [matchFrac]
  rw [if_pos ha, if_neg (by simp [colon_not_digit])]
  exact matchFracTail_eq_some _ _ _ _ _ _ _ _ _ hm1 hm2 hs1 hs2 hd1 hd2 hd3

/-- The fractional matcher succeeds, with the expected groups, on the
two-digit-hour shape. -/
lemma matchFrac_shape2 (a b m1 m2 s1 s2 d1 d2 d3 : Char) (rest : List Char)
    (ha : a.isDigit) (hb : b.isDigit) (hm1 : m1.isDigit) (hm2 : m2.isDigit)
    (hs1 : s1.isDigit) (hs2 : s2.isDigit) (hd1 : d1.isDigit) (hd2 : d2.isDigit)
    (hd3 : d3.isDigit) :
    matchFrac (a :: b :: ':' :: m1 :: m2 :: ':' :: s1 :: s2 :: '.' :: d1 :: d2 :: d3 :: rest) =
      some (10 * digitVal a + digitVal b, 10 * digitVal m1 + digitVal m2,
        10 * digitVal s1 + digitVal s2,
        100 * digitVal d1 + 10 * digitVal d2 + digitVal d3) := by
  simp only [matchFrac]
  rw [if_pos ha, if_pos hb,
    matchFracTail_eq_some _ _ _ _ _ _ _ _ _ hm1 hm2 hs1 hs2 hd1 hd2 hd3]

/-- The plain matcher succeeds, with the expected groups, on the
one-digit-hour shape. -/
lemma matchPlain_shape1 (a m1 m2 s1 s2 : Char) (rest : List Char)
    (ha : a.isDigit) (hm1 : m1.isDigit) (hm2 : m2.isDigit) (hs1 : s1.isDigit)
    (hs2 : s2.isDigit) :
    matchPlain (a :: ':' :: m1 :: m2 :: ':' :: s1 :: s2 :: rest) =
      some (digitVal a, 10 * digitVal m1 + digitVal m2, 10 * digitVal s1 + digitVal s2) := by
  simp only [matchPlain]
  rw [if_pos ha, if_neg (by simp [colon_not_digit])]
  exact matchPlainTail_eq_some _ _ _ _ _ _ hm1 hm2 hs1 hs2

/-- The plain matcher succeeds, with the expected groups, on the
two-digit-hour shape. -/
lemma matchPlain_shape2 (a b m1 m2 s1 s2 : Char) (rest : List Char)
    (ha : a.isDigit) (hb : b.isDigit) (hm1 : m1.isDigit) (hm2 : m2.isDigit)
    (hs1 : s1.isDigit) (hs2 : s2.isDigit) :
    matchPlain (a :: b :: ':' :: m1 :: m2 :: ':' :: s1 :: s2 :: rest) =
      some (10 * digitVal a + digitVal b, 10 * digitVal m1 + digitVal m2,
        10 * digitVal s1 + digitVal s2) := by
  simp only [matchPlain]
  rw [if_pos ha, if_pos hb, matchPlainTail_eq_some _ _ _ _ _ _ hm1 hm2 hs1 hs2]

lemma matchFracTail_some_shape (h : ℕ) (cs : List Char) (v : ℕ × ℕ × ℕ × ℕ)
    (hm : matchFracTail h cs = some v) :
    ∃ m1 m2 s1 s2 d1 d2 d3 tl, m1.isDigit ∧ m2.isDigit ∧ s1.isDigit ∧ s2.isDigit ∧
      d1.isDigit ∧ d2.isDigit ∧ d3.isDigit ∧
      cs = ':' :: m1 :: m2 :: ':' :: s1 :: s2 :: '.' :: d1 :: d2 :: d3 :: tl ∧
      v = (h, 10 * digitVal m1 + digitVal m2, 10 * digitVal s1 + digitVal s2,
        100 * digitVal d1 + 10 * digitVal d2 + digitVal d3) := by
  unfold matchFracTail at hm
  split at hm
  · next c0 m1 m2 c1 s1 s2 c2 d1 d2 d3 tl =>
    split at hm
    · next hand =>
      obtain ⟨h0, h1, h2, h3, h4, h5, h6, h7, h8, h9⟩ := hand
      subst h0; subst h3; subst h6
      exact ⟨m1, m2, s1, s2, d1, d2, d3, tl, h1, h2, h4, h5, h7, h8, h9, rfl,
        (Option.some.injEq .. ▸ hm).symm⟩
    · exact absurd hm (by simp)
  · exact absurd hm (by simp)

lemma matchPlainTail_some_shape (h : ℕ) (cs : List Char) (v : ℕ × ℕ × ℕ)
    (hm : matchPlainTail h cs = some v) :
    ∃ m1 m2 s1 s2 tl, m1.isDigit ∧ m2.isDigit ∧ s1.isDigit ∧ s2.isDigit ∧
      cs = ':' :: m1 :: m2 :: ':' :: s1 :: s2 :: tl ∧
      v = (h, 10 * digitVal m1 + digitVal m2, 10 * digitVal s1 + digitVal s2) := by
  unfold matchPlainTail at hm
  split at hm
  · next c0 m1 m2 c1 s1 s2 tl =>
    split at hm
    · next hand =>
      obtain ⟨h0, h1, h2, h3, h4, h5⟩ := hand
      subst h0; subst h3
      exact ⟨m1, m2, s1, s2, tl, h1, h2, h4, h5, rfl, (Option.some.injEq .. ▸ hm).symm⟩
    · exact absurd hm (by simp)
  · exact absurd hm (by simp)

/-- If the fractional matcher succeeds then the input has the fractional
shape. -/
lemma matchFrac_some_shape (cs : List Char) (v : ℕ × ℕ × ℕ × ℕ)
    (h : matchFrac cs = some v) : FracHead cs := by
  unfold matchFrac at h
  split at h
  · next c1 c2 rest =>
    split at h
    · next hc1 =>
      split at h
      · next hc2 =>
        split at h
        · next v0 heq =>
          obtain ⟨m1, m2, s1, s2, d1, d2, d3, tl, hm1, hm2, hs1, hs2, hd1, hd2, hd3,
            hshape, _⟩ := matchFracTail_some_shape _ _ _ heq
          exact Or.inr ⟨c1, c2, m1, m2, s1, s2, d1, d2, d3, tl, hc1, hc2, hm1, hm2,
            hs1, hs2, hd1, hd2, hd3, by rw [hshape]⟩
        · next heq =>
          rw [matchFracTail_digit_head _ _ _ hc2] at h
          exact absurd h (by simp)
      · next hc2 =>
        obtain ⟨m1, m2, s1, s2, d1, d2, d3, tl, hm1, hm2, hs1, hs2, hd1, hd2, hd3,
          hshape, _⟩ := matchFracTail_some_shape _ _ _ h
        obtain ⟨he, hrest⟩ := List.cons.injEq .. ▸ hshape
        exact Or.inl ⟨c1, m1, m2, s1, s2, d1, d2, d3, tl, hc1, hm1, hm2, hs1, hs2,
          hd1, hd2, hd3, by rw [he, hrest]⟩
    · exact absurd h (by simp)
  · exact absurd h (by simp)

/-- If the plain matcher succeeds then the input has the plain shape. -/
lemma matchPlain_some_shape (cs : List Char) (v : ℕ × ℕ × ℕ)
    (h : matchPlain cs = some v) : PlainHead cs := by
  unfold matchPlain at h
  split at h
  · next c1 c2 rest =>
    split at h
    · next hc1 =>
      split at h
      · next hc2 =>
        split at h
        · next v0 heq =>
          obtain ⟨m1, m2, s1, s2, tl, hm1, hm2, hs1, hs2, hshape, _⟩ :=
            matchPlainTail_some_shape _ _ _ heq
          exact Or.inr ⟨c1, c2, m1, m2, s1, s2, tl, hc1, hc2, hm1, hm2, hs1, hs2,
            by rw [hshape]⟩
        · next heq =>
          rw [matchPlainTail_digit_head _ _ _ hc2] at h
          exact absurd h (by simp)
      · next hc2 =>
        obtain ⟨m1, m2, s1, s2, tl, hm1, hm2, hs1, hs2, hshape, _⟩ :=
          matchPlainTail_some_shape _ _ _ h
        obtain ⟨he, hrest⟩ := List.cons.injEq .. ▸ hshape
        exact Or.inl ⟨c1, m1, m2, s1, s2, tl, hc1, hm1, hm2, hs1, hs2,
          by rw [he, hrest]⟩
    · exact absurd h (by simp)
  · exact absurd h (by simp)

/-- If the input has the fractional shape then the fractional matcher
succeeds. -/
lemma matchFrac_ne_none_of_shape (cs : List Char) (h : FracHead cs) :
    matchFrac cs ≠ none := by
  rcases h with ⟨a, m1, m2, s1, s2, d1, d2, d3, rest, ha, hm1, hm2, hs1, hs2,
      hd1, hd2, hd3, hshape⟩ |
    ⟨a, b, m1, m2, s1, s2, d1, d2, d3, rest, ha, hb, hm1, hm2, hs1, hs2,
      hd1, hd2, hd3, hshape⟩
  · rw [hshape, matchFrac_shape1 _ _ _ _ _ _ _ _ _ ha hm1 hm2 hs1 hs2 hd1 hd2 hd3]
    simp
  · rw [hshape, matchFrac_shape2 _ _ _ _ _ _ _ _ _ _ ha hb hm1 hm2 hs1 hs2 hd1 hd2 hd3]
    simp

/-- If the input has the plain shape then the plain matcher succeeds. -/
lemma matchPlain_ne_none_of_shape (cs : List Char) (h : PlainHead cs) :
    matchPlain cs ≠ none := by
  rcases h with ⟨a, m1, m2, s1, s2, rest, ha, hm1, hm2, hs1, hs2, hshape⟩ |
    ⟨a, b, m1, m2, s1, s2, rest, ha, hb, hm1, hm2, hs1, hs2, hshape⟩
  · rw [hshape, matchPlain_shape1 _ _ _ _ _ _ ha hm1 hm2 hs1 hs2]
    simp
  · rw [hshape, matchPlain_shape2 _ _ _ _ _ _ _ ha hb hm1 hm2 hs1 hs2]
    simp

lemma dropWhile_eq_self_of_false {α : Type} {p : α → Bool} {l : List α}
    (h : ∀ c ∈ l, p c = false) : l.dropWhile p = l := by
  cases l with
  | nil => rfl
  | cons a t =>
    rw [List.dropWhile_cons, h a (List.mem_cons_self a t)]
    simp

lemma pyStrip_eq_self {cs : List Char} (h : ∀ c ∈ cs, pyWhitespace c = false) :
    pyStrip cs = cs := by
  unfold pyStrip
  rw [dropWhile_eq_self_of_false h,
    dropWhile_eq_self_of_false (fun c hc => h c (List.mem_reverse.mp hc)),
    List.reverse_reverse]

lemma digit_not_pyWhitespace (c : Char) (h : c.isDigit) : pyWhitespace c = false := by
  rcases Bool.eq_false_or_eq_true (pyWhitespace c) with hw | hw
  swap
  · exact hw
  · exfalso
    unfold pyWhitespace at hw
    simp only [Bool.or_eq_true, decide_eq_true_eq] at hw
    rcases hw with ((((rfl | rfl) | rfl) | rfl) | rfl) | rfl <;> exact absurd h (by decide)

lemma digit_ne_comma (c : Char) (h : c.isDigit) : ¬(c = ',') := by
  intro he
  rw [he] at h
  exact absurd h (by decide)

lemma replaceCommas_cons (c : Char) (l : List Char) :
    replaceCommas (c :: l) = (if c = ',' then '.' else c) :: replaceCommas l := rfl

lemma replaceCommas_nil : replaceCommas [] = [] := rfl

lemma sep_to_dot {sep : Char} (hsep : sep = '.' ∨ sep = ',') :
    (if sep = ',' then '.' else sep) = '.' := by
  rcases hsep with rfl | rfl
  · rw [if_neg (by decide)]
  · rw [if_pos rfl]

/-- `parse_srt_time` on an exact two-digit-hour fractional timestamp. -/
lemma parse_list_frac2 (a b m1 m2 s1 s2 sep d1 d2 d3 : Char)
    (ha : a.isDigit) (hb : b.isDigit) (hm1 : m1.isDigit) (hm2 : m2.isDigit)
    (hs1 : s1.isDigit) (hs2 : s2.isDigit) (hsep : sep = '.' ∨ sep = ',')
    (hd1 : d1.isDigit) (hd2 : d2.isDigit) (hd3 : d3.isDigit) :
    parse_srt_time_list [a, b, ':', m1, m2, ':', s1, s2, sep, d1, d2, d3] =
      some (fracSeconds (10 * digitVal a + digitVal b, 10 * digitVal m1 + digitVal m2,
        10 * digitVal s1 + digitVal s2,
        100 * digitVal d1 + 10 * digitVal d2 + digitVal d3)) := by
  have hstrip : pyStrip [a, b, ':', m1, m2, ':', s1, s2, sep, d1, d2, d3] =
      [a, b, ':', m1, m2, ':', s1, s2, sep, d1, d2, d3] := by
    apply pyStrip_eq_self
    intro c hc
    simp only [List.mem_cons, List.not_mem_nil, or_false] at hc
    rcases hc with rfl | rfl | rfl | rfl | rfl | rfl | rfl | rfl | rfl | rfl | rfl | rfl
    · exact digit_not_pyWhitespace _ ha
    · exact digit_not_pyWhitespace _ hb
    · decide
    · exact digit_not_pyWhitespace _ hm1
    · exact digit_not_pyWhitespace _ hm2
    · decide
    · exact digit_not_pyWhitespace _ hs1
    · exact digit_not_pyWhitespace _ hs2
    · rcases hsep with rfl | rfl <;> decide
    · exact digit_not_pyWhitespace _ hd1
    · exact digit_not_pyWhitespace _ hd2
    · exact digit_not_pyWhitespace _ hd3
  have hrep : replaceCommas [a, b, ':', m1, m2, ':', s1, s2, sep, d1, d2, d3] =
      [a, b, ':', m1, m2, ':', s1, s2, '.', d1, d2, d3] := by
    simp only [replaceCommas_cons, replaceCommas_nil]
    rw [if_neg (digit_ne_comma _ ha), if_neg (digit_ne_comma _ hb),
      if_neg (show ¬((':' : Char) = ',') by decide),
      if_neg (digit_ne_comma _ hm1), if_neg (digit_ne_comma _ hm2),
      if_neg (digit_ne_comma _ hs1), if_neg (digit_ne_comma _ hs2),
      sep_to_dot hsep,
      if_neg (digit_ne_comma _ hd1), if_neg (digit_ne_comma _ hd2),
      if_neg (digit_ne_comma _ hd3)]
  unfold parse_srt_time_list
  rw [hstrip, hrep]
  dsimp only
  rw [matchFrac_shape2 _ _ _ _ _ _ _ _ _ _ ha hb hm1 hm2 hs1 hs2 hd1 hd2 hd3]

/-- `parse_srt_time` on an exact one-digit-hour fractional timestamp. -/
lemma parse_list_frac1 (a m1 m2 s1 s2 sep d1 d2 d3 : Char)
    (ha : a.isDigit) (hm1 : m1.isDigit) (hm2 : m2.isDigit)
    (hs1 : s1.isDigit) (hs2 : s2.isDigit) (hsep : sep = '.' ∨ sep = ',')
    (hd1 : d1.isDigit) (hd2 : d2.isDigit) (hd3 : d3.isDigit) :
    parse_srt_time_list [a, ':', m1, m2, ':', s1, s2, sep, d1, d2, d3] =
      some (fracSeconds (digitVal a, 10 * digitVal m1 + digitVal m2,
        10 * digitVal s1 + digitVal s2,
        100 * digitVal d1 + 10 * digitVal d2 + digitVal d3)) := by
  have hstrip : pyStrip [a, ':', m1, m2, ':', s1, s2, sep, d1, d2, d3] =
      [a, ':', m1, m2, ':', s1, s2, sep, d1, d2, d3] := by
    apply pyStrip_eq_self
    intro c hc
    simp only [List.mem_cons, List.not_mem_nil, or_false] at hc
    rcases hc with rfl | rfl | rfl | rfl | rfl | rfl | rfl | rfl | rfl | rfl | rfl
    · exact digit_not_pyWhitespace _ ha
    · decide
    · exact digit_not_pyWhitespace _ hm1
    · exact digit_not_pyWhitespace _ hm2
    · decide
    · exact digit_not_pyWhitespace _ hs1
    · exact digit_not_pyWhitespace _ hs2
    · rcases hsep with rfl | rfl <;> decide
    · exact digit_not_pyWhitespace _ hd1
    · exact digit_not_pyWhitespace _ hd2
    · exact digit_not_pyWhitespace _ hd3
  have hrep : replaceCommas [a, ':', m1, m2, ':', s1, s2, sep, d1, d2, d3] =
      [a, ':', m1, m2, ':', s1, s2, '.', d1, d2, d3] := by
    simp only [replaceCommas_cons, replaceCommas_nil]
    rw [if_neg (digit_ne_comma _ ha),
      if_neg (show ¬((':' : Char) = ',') by decide),
      if_neg (digit_ne_comma _ hm1), if_neg (digit_ne_comma _ hm2),
      if_neg (digit_ne_comma _ hs1), if_neg (digit_ne_comma _ hs2),
      sep_to_dot hsep,
      if_neg (digit_ne_comma _ hd1), if_neg (digit_ne_comma _ hd2),
      if_neg (digit_ne_comma _ hd3)]
  unfold parse_srt_time_list
  rw [hstrip, hrep]
  dsimp only
  rw [matchFrac_shape1 _ _ _ _ _ _ _ _ _ ha hm1 hm2 hs1 hs2 hd1 hd2 hd3]

/-- A fractional-shaped list is at least 11 characters long. -/
lemma FracHead_min_length (cs : List Char) (h : FracHead cs) : 11 ≤ cs.length := by
  rcases h with ⟨a, m1, m2, s1, s2, d1, d2, d3, rest, _, _, _, _, _, _, _, _, hshape⟩ |
    ⟨a, b, m1, m2, s1, s2, d1, d2, d3, rest, _, _, _, _, _, _, _, _, _, hshape⟩ <;>
    subst hshape <;> simp

/-- `parse_srt_time` on an exact two-digit-hour plain timestamp. -/
lemma parse_list_plain2 (a b m1 m2 s1 s2 : Char)
    (ha : a.isDigit) (hb : b.isDigit) (hm1 : m1.isDigit) (hm2 : m2.isDigit)
    (hs1 : s1.isDigit) (hs2 : s2.isDigit) :
    parse_srt_time_list [a, b, ':', m1, m2, ':', s1, s2] =
      some (plainSeconds (10 * digitVal a + digitVal b, 10 * digitVal m1 + digitVal m2,
        10 * digitVal s1 + digitVal s2)) := by
  have hstrip : pyStrip [a, b, ':', m1, m2, ':', s1, s2] =
      [a, b, ':', m1, m2, ':', s1, s2] := by
    apply pyStrip_eq_self
    intro c hc
    simp only [List.mem_cons, List.not_mem_nil, or_false] at hc
    rcases hc with rfl | rfl | rfl | rfl | rfl | rfl | rfl | rfl
    · exact digit_not_pyWhitespace _ ha
    · exact digit_not_pyWhitespace _ hb
    · decide
    · exact digit_not_pyWhitespace _ hm1
    · exact digit_not_pyWhitespace _ hm2
    · decide
    · exact digit_not_pyWhitespace _ hs1
    · exact digit_not_pyWhitespace _ hs2
  have hrep : replaceCommas [a, b, ':', m1, m2, ':', s1, s2] =
      [a, b, ':', m1, m2, ':', s1, s2] := by
    simp only [replaceCommas_cons, replaceCommas_nil]
    rw [if_neg (digit_ne_comma _ ha), if_neg (digit_ne_comma _ hb),
      if_neg (show ¬((':' : Char) = ',') by decide),
      if_neg (digit_ne_comma _ hm1), if_neg (digit_ne_comma _ hm2),
      if_neg (digit_ne_comma _ hs1), if_neg (digit_ne_comma _ hs2)]
  unfold parse_srt_time_list
  have hfrac : matchFrac [a, b, ':', m1, m2, ':', s1, s2] = none := by
    cases hm : matchFrac [a, b, ':', m1, m2, ':', s1, s2] with
    | none => rfl
    | some v =>
      have := FracHead_min_length _ (matchFrac_some_shape _ _ hm)
      simp at this
  rw [hstrip, hrep]
  dsimp only
  rw [hfrac]
  dsimp only
  rw [matchPlain_shape2 _ _ _ _ _ _ _ ha hb hm1 hm2 hs1 hs2]

/-- `parse_srt_time` on an exact one-digit-hour plain timestamp. -/
lemma parse_list_plain1 (a m1 m2 s1 s2 : Char)
    (ha : a.isDigit) (hm1 : m1.isDigit) (hm2 : m2.isDigit)
    (hs1 : s1.isDigit) (hs2 : s2.isDigit) :
    parse_srt_time_list [a, ':', m1, m2, ':', s1, s2] =
      some (plainSeconds (digitVal a, 10 * digitVal m1 + digitVal m2,
        10 * digitVal s1 + digitVal s2)) := by
  have hstrip : pyStrip [a, ':', m1, m2, ':', s1, s2] = [a, ':', m1, m2, ':', s1, s2] := by
    apply pyStrip_eq_self
    intro c hc
    simp only [List.mem_cons, List.not_mem_nil, or_false] at hc
    rcases hc with rfl | rfl | rfl | rfl | rfl | rfl | rfl
    · exact digit_not_pyWhitespace _ ha
    · decide
    · exact digit_not_pyWhitespace _ hm1
    · exact digit_not_pyWhitespace _ hm2
    · decide
    · exact digit_not_pyWhitespace _ hs1
    · exact digit_not_pyWhitespace _ hs2
  have hrep : replaceCommas [a, ':', m1, m2, ':', s1, s2] = [a, ':', m1, m2, ':', s1, s2] := by
    simp only [replaceCommas_cons, replaceCommas_nil]
    rw [if_neg (digit_ne_comma _ ha),
      if_neg (show ¬((':' : Char) = ',') by decide),
      if_neg (digit_ne_comma _ hm1), if_neg (digit_ne_comma _ hm2),
      if_neg (digit_ne_comma _ hs1), if_neg (digit_ne_comma _ hs2)]
  unfold parse_srt_time_list
  have hfrac : matchFrac [a, ':', m1, m2, ':', s1, s2] = none := by
    cases hm : matchFrac [a, ':', m1, m2, ':', s1, s2] with
    | none => rfl
    | some v =>
      have := FracHead_min_length _ (matchFrac_some_shape _ _ hm)
      simp at this
  rw [hstrip, hrep]
  dsimp only
  rw [hfrac]
  dsimp only
  rw [matchPlain_shape1 _ _ _ _ _ _ ha hm1 hm2 hs1 hs2]

/-- C3: parsing `H:MM:SS.mmm` or `H:MM:SS,mmm` (hours one or two digits,
comma accepted as decimal separator) returns `h*3600 + m*60 + s + ms/1000`,
and the no-fraction form `H:MM:SS` returns `h*3600 + m*60 + s`; in
particular `parse("01:02:03,456") = 3723.456` and
`parse("1:00:00") = 3600.0`. -/
theorem C3_parse_srt_time_values :
    (∀ a b m1 m2 s1 s2 sep d1 d2 d3 : Char,
      a.isDigit → b.isDigit → m1.isDigit → m2.isDigit → s1.isDigit → s2.isDigit →
      (sep = '.' ∨ sep = ',') → d1.isDigit → d2.isDigit → d3.isDigit →
      parse_srt_time_list [a, b, ':', m1, m2, ':', s1, s2, sep, d1, d2, d3] =
        some (((10 * digitVal a + digitVal b : ℕ) : ℚ) * 3600 +
          ((10 * digitVal m1 + digitVal m2 : ℕ) : ℚ) * 60 +
          ((10 * digitVal s1 + digitVal s2 : ℕ) : ℚ) +
          ((100 * digitVal d1 + 10 * digitVal d2 + digitVal d3 : ℕ) : ℚ) / 1000)) ∧
    (∀ a m1 m2 s1 s2 sep d1 d2 d3 : Char,
      a.isDigit → m1.isDigit → m2.isDigit → s1.isDigit → s2.isDigit →
      (sep = '.' ∨ sep = ',') → d1.isDigit → d2.isDigit → d3.isDigit →
      parse_srt_time_list [a, ':', m1, m2, ':', s1, s2, sep, d1, d2, d3] =
        some (((digitVal a : ℕ) : ℚ) * 3600 +
          ((10 * digitVal m1 + digitVal m2 : ℕ) : ℚ) * 60 +
          ((10 * digitVal s1 + digitVal s2 : ℕ) : ℚ) +
          ((100 * digitVal d1 + 10 * digitVal d2 + digitVal d3 : ℕ) : ℚ) / 1000)) ∧
    (∀ a b m1 m2 s1 s2 : Char,
      a.isDigit → b.isDigit → m1.isDigit → m2.isDigit → s1.isDigit → s2.isDigit →
      parse_srt_time_list [a, b, ':', m1, m2, ':', s1, s2] =
        some (((10 * digitVal a + digitVal b : ℕ) : ℚ) * 3600 +
          ((10 * digitVal m1 + digitVal m2 : ℕ) : ℚ) * 60 +
          ((10 * digitVal s1 + digitVal s2 : ℕ) : ℚ))) ∧
    (∀ a m1 m2 s1 s2 : Char,
      a.isDigit → m1.isDigit → m2.isDigit → s1.isDigit → s2.isDigit →
      parse_srt_time_list [a, ':', m1, m2, ':', s1, s2] =
        some (((digitVal a : ℕ) : ℚ) * 3600 +
          ((10 * digitVal m1 + digitVal m2 : ℕ) : ℚ) * 60 +
          ((10 * digitVal s1 + digitVal s2 : ℕ) : ℚ))) ∧
    parse_srt_time "01:02:03,456" = some (3723456 / 1000) ∧
    parse_srt_time "1:00:00" = some 3600 := by
  refine ⟨?_, ?_, ?_, ?_, ?_, ?_⟩
  · intro a b m1 m2 s1 s2 sep d1 d2 d3 ha hb hm1 hm2 hs1 hs2 hsep hd1 hd2 hd3
    rw [parse_list_frac2 a b m1 m2 s1 s2 sep d1 d2 d3 ha hb hm1 hm2 hs1 hs2 hsep hd1 hd2 hd3]
    rfl
  · intro a m1 m2 s1 s2 sep d1 d2 d3 ha hm1 hm2 hs1 hs2 hsep hd1 hd2 hd3
    rw [parse_list_frac1 a m1 m2 s1 s2 sep d1 d2 d3 ha hm1 hm2 hs1 hs2 hsep hd1 hd2 hd3]
    rfl
  · intro a b m1 m2 s1 s2 ha hb hm1 hm2 hs1 hs2
    rw [parse_list_plain2 a b m1 m2 s1 s2 ha hb hm1 hm2 hs1 hs2]
    rfl
  · intro a m1 m2 s1 s2 ha hm1 hm2 hs1 hs2
    rw [parse_list_plain1 a m1 m2 s1 s2 ha hm1 hm2 hs1 hs2]
    rfl
  · have h : parse_srt_time "01:02:03,456" = some (fracSeconds (1, 2, 3, 456)) := rfl
    rw [h]; norm_num [fracSeconds]
  · have h : parse_srt_time "1:00:00" = some (plainSeconds (1, 0, 0)) := rfl
    rw [h]; norm_num [plainSeconds]

/-- Witness for C3: the two-digit fractional clause instantiated at
`"12:34:56.789"`. -/
theorem C3_parse_srt_time_values_witness :
    parse_srt_time_list ['1', '2', ':', '3', '4', ':', '5', '6', '.', '7', '8', '9'] =
      some (((10 * digitVal '1' + digitVal '2' : ℕ) : ℚ) * 3600 +
        ((10 * digitVal '3' + digitVal '4' : ℕ) : ℚ) * 60 +
        ((10 * digitVal '5' + digitVal '6' : ℕ) : ℚ) +
        ((100 * digitVal '7' + 10 * digitVal '8' + digitVal '9' : ℕ) : ℚ) / 1000) :=
  C3_parse_srt_time_values.1 '1' '2' '3' '4' '5' '6' '.' '7' '8' '9'
    (by decide) (by decide) (by decide) (by decide) (by decide) (by decide)
    (Or.inl rfl) (by decide) (by decide) (by decide)

/-- C7: the timestamp parser fails exactly when neither the fractional
pattern nor the plain pattern matches a prefix of the (stripped,
comma-normalized) input. -/
theorem C7_parse_srt_time_failure (cs : List Char) :
    parse_srt_time_list cs = none ↔
      ¬FracHead (replaceCommas (pyStrip cs)) ∧ ¬PlainHead (replaceCommas (pyStrip cs)) := by
  unfold parse_srt_time_list
  dsimp only
  cases hf : matchFrac (replaceCommas (pyStrip cs)) with
  | some v =>
    constructor
    · intro h
      simp at h
    · intro h
      exact absurd (matchFrac_some_shape _ _ hf) h.1
  | none =>
    cases hp : matchPlain (replaceCommas (pyStrip cs)) with
    | some v =>
      constructor
      · intro h
        simp at h
      · intro h
        exact absurd (matchPlain_some_shape _ _ hp) h.2
    | none =>
      constructor
      · intro _
        exact ⟨fun h => matchFrac_ne_none_of_shape _ h hf,
          fun h => matchPlain_ne_none_of_shape _ h hp⟩
      · intro _
        rfl

/-- Witness for C7 at the malformed input `"xx"`. -/
theorem C7_parse_srt_time_failure_witness :
    parse_srt_time_list ['x', 'x'] = none ↔
      ¬FracHead (replaceCommas (pyStrip ['x', 'x'])) ∧
        ¬PlainHead (replaceCommas (pyStrip ['x', 'x'])) :=
  C7_parse_srt_time_failure ['x', 'x']

/-- Normalization of an exact one-digit-hour block timestamp. -/
lemma norm_block1 (a m1 m2 s1 s2 sep d1 d2 d3 : Char)
    (ha : a.isDigit) (hm1 : m1.isDigit) (hm2 : m2.isDigit)
    (hs1 : s1.isDigit) (hs2 : s2.isDigit) (hsep : sep = '.' ∨ sep = ',')
    (hd1 : d1.isDigit) (hd2 : d2.isDigit) (hd3 : d3.isDigit) :
    replaceCommas (pyStrip [a, ':', m1, m2, ':', s1, s2, sep, d1, d2, d3]) =
      [a, ':', m1, m2, ':', s1, s2, '.', d1, d2, d3] := by
  have hstrip : pyStrip [a, ':', m1, m2, ':', s1, s2, sep, d1, d2, d3] =
      [a, ':', m1, m2, ':', s1, s2, sep, d1, d2, d3] := by
    apply pyStrip_eq_self
    intro c hc
    simp only [List.mem_cons, List.not_mem_nil, or_false] at hc
    rcases hc with rfl | rfl | rfl | rfl | rfl | rfl | rfl | rfl | rfl | rfl | rfl
    · exact digit_not_pyWhitespace _ ha
    · decide
    · exact digit_not_pyWhitespace _ hm1
    · exact digit_not_pyWhitespace _ hm2
    · decide
    · exact digit_not_pyWhitespace _ hs1
    · exact digit_not_pyWhitespace _ hs2
    · rcases hsep with rfl | rfl <;> decide
    · exact digit_not_pyWhitespace _ hd1
    · exact digit_not_pyWhitespace _ hd2
    · exact digit_not_pyWhitespace _ hd3
  rw [hstrip]
  simp only [replaceCommas_cons, replaceCommas_nil]
  rw [if_neg (digit_ne_comma _ ha),
    if_neg (show ¬((':' : Char) = ',') by decide),
    if_neg (digit_ne_comma _ hm1), if_neg (digit_ne_comma _ hm2),
    if_neg (digit_ne_comma _ hs1), if_neg (digit_ne_comma _ hs2),
    sep_to_dot hsep,
    if_neg (digit_ne_comma _ hd1), if_neg (digit_ne_comma _ hd2),
    if_neg (digit_ne_comma _ hd3)]

/-- Normalization of an exact two-digit-hour block timestamp. -/
lemma norm_block2 (a b m1 m2 s1 s2 sep d1 d2 d3 : Char)
    (ha : a.isDigit) (hb : b.isDigit) (hm1 : m1.isDigit) (hm2 : m2.isDigit)
    (hs1 : s1.isDigit) (hs2 : s2.isDigit) (hsep : sep = '.' ∨ sep = ',')
    (hd1 : d1.isDigit) (hd2 : d2.isDigit) (hd3 : d3.isDigit) :
    replaceCommas (pyStrip [a, b, ':', m1, m2, ':', s1, s2, sep, d1, d2, d3]) =
      [a, b, ':', m1, m2, ':', s1, s2, '.', d1, d2, d3] := by
  have hstrip : pyStrip [a, b, ':', m1, m2, ':', s1, s2, sep, d1, d2, d3] =
      [a, b, ':', m1, m2, ':', s1, s2, sep, d1, d2, d3] := by
    apply pyStrip_eq_self
    intro c hc
    simp only [List.mem_cons, List.not_mem_nil, or_false] at hc
    rcases hc with rfl | rfl | rfl | rfl | rfl | rfl | rfl | rfl | rfl | rfl | rfl | rfl
    · exact digit_not_pyWhitespace _ ha
    · exact digit_not_pyWhitespace _ hb
    · decide
    · exact digit_not_pyWhitespace _ hm1
    · exact digit_not_pyWhitespace _ hm2
    · decide
    · exact digit_not_pyWhitespace _ hs1
    · exact digit_not_pyWhitespace _ hs2
    · rcases hsep with rfl | rfl <;> decide
    · exact digit_not_pyWhitespace _ hd1
    · exact digit_not_pyWhitespace _ hd2
    · exact digit_not_pyWhitespace _ hd3
  rw [hstrip]
  simp only [replaceCommas_cons, replaceCommas_nil]
  rw [if_neg (digit_ne_comma _ ha), if_neg (digit_ne_comma _ hb),
    if_neg (show ¬((':' : Char) = ',') by decide),
    if_neg (digit_ne_comma _ hm1), if_neg (digit_ne_comma _ hm2),
    if_neg (digit_ne_comma _ hs1), if_neg (digit_ne_comma _ hs2),
    sep_to_dot hsep,
    if_neg (digit_ne_comma _ hd1), if_neg (digit_ne_comma _ hd2),
    if_neg (digit_ne_comma _ hd3)]

/-- C9: a timestamp captured by the cue-block pattern always has exactly
three fractional digits, so it is always parsed by the fractional branch of
`parse_srt_time` (the plain fallback is unreachable from cue-track
parsing), and a plain `H:MM:SS` timestamp never has the captured shape. -/
theorem C9_block_pattern_unreachable_fallback :
    (∀ cs : List Char, BlockTimeShape cs →
      ∃ v, matchFrac (replaceCommas (pyStrip cs)) = some v ∧
        parse_srt_time_list cs = some (fracSeconds v)) ∧
    (∀ cs : List Char, PlainExactShape cs → ¬BlockTimeShape cs) := by
  constructor
  · intro cs h
    rcases h with ⟨a, m1, m2, s1, s2, sep, d1, d2, d3, ha, hm1, hm2, hs1, hs2, hsep,
        hd1, hd2, hd3, rfl⟩ |
      ⟨a, b, m1, m2, s1, s2, sep, d1, d2, d3, ha, hb, hm1, hm2, hs1, hs2, hsep,
        hd1, hd2, hd3, rfl⟩
    · refine ⟨_, ?_, parse_list_frac1 a m1 m2 s1 s2 sep d1 d2 d3
        ha hm1 hm2 hs1 hs2 hsep hd1 hd2 hd3⟩
      rw [norm_block1 a m1 m2 s1 s2 sep d1 d2 d3 ha hm1 hm2 hs1 hs2 hsep hd1 hd2 hd3]
      exact matchFrac_shape1 _ _ _ _ _ _ _ _ _ ha hm1 hm2 hs1 hs2 hd1 hd2 hd3
    · refine ⟨_, ?_, parse_list_frac2 a b m1 m2 s1 s2 sep d1 d2 d3
        ha hb hm1 hm2 hs1 hs2 hsep hd1 hd2 hd3⟩
      rw [norm_block2 a b m1 m2 s1 s2 sep d1 d2 d3 ha hb hm1 hm2 hs1 hs2 hsep hd1 hd2 hd3]
      exact matchFrac_shape2 _ _ _ _ _ _ _ _ _ _ ha hb hm1 hm2 hs1 hs2 hd1 hd2 hd3
  · intro cs hp hb
    rcases hp with ⟨a, m1, m2, s1, s2, _, _, _, _, _, rfl⟩ |
      ⟨a, b, m1, m2, s1, s2, _, _, _, _, _, _, rfl⟩ <;>
      rcases hb with ⟨a2, m12, m22, s12, s22, sep, d1, d2, d3, _, _, _, _, _, _, _, _, _, heq⟩ |
        ⟨a2, b2, m12, m22, s12, s22, sep, d1, d2, d3, _, _, _, _, _, _, _, _, _, _, heq⟩ <;>
      simp at heq

/-- Witness for C9: the captured timestamp `"01:02:03,456"` and the plain
timestamp `"1:00:00"`. -/
theorem C9_block_pattern_unreachable_fallback_witness :
    (∃ v, matchFrac (replaceCommas (pyStrip
        ['0', '1', ':', '0', '2', ':', '0', '3', ',', '4', '5', '6'])) = some v ∧
      parse_srt_time_list ['0', '1', ':', '0', '2', ':', '0', '3', ',', '4', '5', '6'] =
        some (fracSeconds v)) ∧
    ¬BlockTimeShape ['1', ':', '0', '0', ':', '0', '0'] :=
  ⟨C9_block_pattern_unreachable_fallback.1 _
      (Or.inr ⟨'0', '1', '0', '2', '0', '3', ',', '4', '5', '6', by decide, by decide,
        by decide, by decide, by decide, by decide, Or.inr rfl, by decide, by decide,
        by decide, rfl⟩),
    C9_block_pattern_unreachable_fallback.2 _
      (Or.inl ⟨'1', '0', '0', '0', '0', by decide, by decide, by decide, by decide,
        by decide, rfl⟩)⟩

/-- C10: timestamp parsing is prefix-anchored.  Whenever a prefix of the
normalized input matches one of the two patterns, parsing succeeds; the
returned value is computed from the captured groups only, so all trailing
characters are ignored (fractional pattern first, then — when the
fractional pattern does not match — the plain pattern).  In particular a
fractional part of fewer than three digits is dropped:
`parse("01:02:03.45") = 3723.0`, not an error. -/
theorem C10_parse_srt_time_anchored :
    (∀ cs : List Char,
      FracHead (replaceCommas (pyStrip cs)) ∨ PlainHead (replaceCommas (pyStrip cs)) →
      (parse_srt_time_list cs).isSome) ∧
    (∀ (cs : List Char) (a m1 m2 s1 s2 d1 d2 d3 : Char) (rest : List Char),
      a.isDigit → m1.isDigit → m2.isDigit → s1.isDigit → s2.isDigit →
      d1.isDigit → d2.isDigit → d3.isDigit →
      replaceCommas (pyStrip cs) =
        a :: ':' :: m1 :: m2 :: ':' :: s1 :: s2 :: '.' :: d1 :: d2 :: d3 :: rest →
      parse_srt_time_list cs = some (fracSeconds (digitVal a,
        10 * digitVal m1 + digitVal m2, 10 * digitVal s1 + digitVal s2,
        100 * digitVal d1 + 10 * digitVal d2 + digitVal d3))) ∧
    (∀ (cs : List Char) (a b m1 m2 s1 s2 d1 d2 d3 : Char) (rest : List Char),
      a.isDigit → b.isDigit → m1.isDigit → m2.isDigit → s1.isDigit → s2.isDigit →
      d1.isDigit → d2.isDigit → d3.isDigit →
      replaceCommas (pyStrip cs) =
        a :: b :: ':' :: m1 :: m2 :: ':' :: s1 :: s2 :: '.' :: d1 :: d2 :: d3 :: rest →
      parse_srt_time_list cs = some (fracSeconds (10 * digitVal a + digitVal b,
        10 * digitVal m1 + digitVal m2, 10 * digitVal s1 + digitVal s2,
        100 * digitVal d1 + 10 * digitVal d2 + digitVal d3))) ∧
    (∀ (cs : List Char) (a m1 m2 s1 s2 : Char) (rest : List Char),
      a.isDigit → m1.isDigit → m2.isDigit → s1.isDigit → s2.isDigit →
      ¬FracHead (replaceCommas (pyStrip cs)) →
      replaceCommas (pyStrip cs) = a :: ':' :: m1 :: m2 :: ':' :: s1 :: s2 :: rest →
      parse_srt_time_list cs = some (plainSeconds (digitVal a,
        10 * digitVal m1 + digitVal m2, 10 * digitVal s1 + digitVal s2))) ∧
    (∀ (cs : List Char) (a b m1 m2 s1 s2 : Char) (rest : List Char),
      a.isDigit → b.isDigit → m1.isDigit → m2.isDigit → s1.isDigit → s2.isDigit →
      ¬FracHead (replaceCommas (pyStrip cs)) →
      replaceCommas (pyStrip cs) = a :: b :: ':' :: m1 :: m2 :: ':' :: s1 :: s2 :: rest →
      parse_srt_time_list cs = some (plainSeconds (10 * digitVal a + digitVal b,
        10 * digitVal m1 + digitVal m2, 10 * digitVal s1 + digitVal s2))) ∧
    parse_srt_time "01:02:03.45" = some 3723 := by
  refine ⟨?_, ?_, ?_, ?_, ?_, ?_⟩
  · intro cs h
    unfold parse_srt_time_list
    dsimp only
    cases hf : matchFrac (replaceCommas (pyStrip cs)) with
    | some v => simp
    | none =>
      cases hp : matchPlain (replaceCommas (pyStrip cs)) with
      | some v => simp
      | none =>
        rcases h with hfr | hpl
        · exact absurd hf (matchFrac_ne_none_of_shape _ hfr)
        · exact absurd hp (matchPlain_ne_none_of_shape _ hpl)
  · intro cs a m1 m2 s1 s2 d1 d2 d3 rest ha hm1 hm2 hs1 hs2 hd1 hd2 hd3 hn
    unfold parse_srt_time_list
    dsimp only
    rw [hn, matchFrac_shape1 _ _ _ _ _ _ _ _ _ ha hm1 hm2 hs1 hs2 hd1 hd2 hd3]
  · intro cs a b m1 m2 s1 s2 d1 d2 d3 rest ha hb hm1 hm2 hs1 hs2 hd1 hd2 hd3 hn
    unfold parse_srt_time_list
    dsimp only
    rw [hn, matchFrac_shape2 _ _ _ _ _ _ _ _ _ _ ha hb hm1 hm2 hs1 hs2 hd1 hd2 hd3]
  · intro cs a m1 m2 s1 s2 rest ha hm1 hm2 hs1 hs2 hnf hn
    unfold parse_srt_time_list
    dsimp only
    rw [hn] at hnf ⊢
    cases hf : matchFrac (a :: ':' :: m1 :: m2 :: ':' :: s1 :: s2 :: rest) with
    | some v => exact absurd (matchFrac_some_shape _ _ hf) hnf
    | none =>
      dsimp only
      rw [matchPlain_shape1 _ _ _ _ _ _ ha hm1 hm2 hs1 hs2]
  · intro cs a b m1 m2 s1 s2 rest ha hb hm1 hm2 hs1 hs2 hnf hn
    unfold parse_srt_time_list
    dsimp only
    rw [hn] at hnf ⊢
    cases hf : matchFrac (a :: b :: ':' :: m1 :: m2 :: ':' :: s1 :: s2 :: rest) with
    | some v => exact absurd (matchFrac_some_shape _ _ hf) hnf
    | none =>
      dsimp only
      rw [matchPlain_shape2 _ _ _ _ _ _ _ ha hb hm1 hm2 hs1 hs2]
  · have h : parse_srt_time "01:02:03.45" = some (plainSeconds (1, 2, 3)) := rfl
    rw [h]; norm_num [plainSeconds]

/-- Witness for C10: trailing characters after a complete fractional
pattern are ignored (`"12:34:56.789xyz"`). -/
theorem C10_parse_srt_time_anchored_witness :
    parse_srt_time_list
        ['1', '2', ':', '3', '4', ':', '5', '6', '.', '7', '8', '9', 'x', 'y', 'z'] =
      some (fracSeconds (10 * digitVal '1' + digitVal '2',
        10 * digitVal '3' + digitVal '4', 10 * digitVal '5' + digitVal '6',
        100 * digitVal '7' + 10 * digitVal '8' + digitVal '9')) :=
  C10_parse_srt_time_anchored.2.2.1
    ['1', '2', ':', '3', '4', ':', '5', '6', '.', '7', '8', '9', 'x', 'y', 'z']
    '1' '2' '3' '4' '5' '6' '7' '8' '9' ['x', 'y', 'z']
    (by decide) (by decide) (by decide) (by decide) (by decide) (by decide)
    (by decide) (by decide) (by decide) (by decide)

lemma parse_blocks_loop_duration (blocks : List RawBlock) (subs : List SubtitleLine)
    (h : parse_blocks_loop blocks = some subs) :
    ∀ x ∈ subs, x.duration = x.end_time - x.start_time := by
  induction blocks generalizing subs with
  | nil =>
    unfold parse_blocks_loop at h
    obtain rfl : ([] : List SubtitleLine) = subs := Option.some.injEq .. ▸ h
    intro x hx
    exact absurd hx (List.not_mem_nil x)
  | cons b rest ih =>
    unfold parse_blocks_loop at h
    split at h
    · next st et heq1 heq2 =>
      split at h
      · next subs0 heq3 =>
        obtain rfl := (Option.some.injEq .. ▸ h).symm
        intro x hx
        rcases List.mem_cons.mp hx with rfl | hx0
        · rfl
        · exact ih subs0 heq3 x hx0
      · exact absurd h (by simp)
    · exact absurd h (by simp)

/-- C4: for every extracted block list whose parse succeeds, the result is
sorted by `index` ascending and every returned cue satisfies
`duration = end_time - start_time`. -/
theorem C4_parse_srt_file_sorted_durations (blocks : List RawBlock)
    (res : List SubtitleLine) (h : parse_srt_file_blocks blocks = some res) :
    List.Pairwise (fun x y : SubtitleLine => x.index ≤ y.index) res ∧
    ∀ x ∈ res, x.duration = x.end_time - x.start_time := by
  unfold parse_srt_file_blocks at h
  cases hp : parse_blocks_loop blocks with
  | none => rw [hp] at h; exact absurd h (by simp)
  | some subs =>
    rw [hp] at h
    obtain rfl : subs.mergeSort (fun x y => decide (x.index ≤ y.index)) = res :=
      Option.some.injEq .. ▸ h
    constructor
    · have hs := @List.sorted_mergeSort SubtitleLine
        (fun x y => decide (x.index ≤ y.index))
        (fun a b c hab hbc => by
          simp only [decide_eq_true_eq] at *
          omega)
        (fun a b => by
          simp only [Bool.or_eq_true, decide_eq_true_eq]
          omega) subs
      exact hs.imp (fun hxy => by simpa using hxy)
    · intro x hx
      exact parse_blocks_loop_duration blocks subs hp x (List.mem_mergeSort.mp hx)

/-- Witness for C4 on a one-block track. -/
theorem C4_parse_srt_file_sorted_durations_witness :
    List.Pairwise (fun x y : SubtitleLine => x.index ≤ y.index) [exampleSub] ∧
    ∀ x ∈ [exampleSub], x.duration = x.end_time - x.start_time :=
  C4_parse_srt_file_sorted_durations [exampleBlock] _ (by
    have h1 : parse_blocks_loop [exampleBlock] = some [exampleSub] := rfl
    unfold parse_srt_file_blocks
    rw [h1]
    simp)

/-- C6: `needs_speedup` holds iff the clip overruns the cue, the speed
factor is the duration ratio in that case and exactly `1` otherwise, and —
for a cue with positive duration, as the data model guarantees
(`endTime > startTime`) — the speed factor is always at least `1`. -/
theorem C6_speed_factor_ge_one (sub : SubtitleLine) (path : List Char) (ad : ℚ)
    (hdur : 0 < sub.duration) :
    ((mkAudioMatch sub path ad).needs_speedup = true ↔ ad > sub.duration) ∧
    (ad > sub.duration → (mkAudioMatch sub path ad).speed_factor = ad / sub.duration) ∧
    (¬ad > sub.duration → (mkAudioMatch sub path ad).speed_factor = 1) ∧
    1 ≤ (mkAudioMatch sub path ad).speed_factor := by
  refine ⟨by simp [mkAudioMatch], fun h => by simp [mkAudioMatch, if_pos h],
    fun h => by simp [mkAudioMatch, if_neg h], ?_⟩
  by_cases h : ad > sub.duration
  · have hle : sub.duration ≤ ad := le_of_lt h
    simp only [mkAudioMatch, if_pos h]
    exact (one_le_div hdur).mpr hle
  · simp [mkAudioMatch, if_neg h]

/-- Witness for C6: a 2-second cue with a 3-second clip. -/
theorem C6_speed_factor_ge_one_witness :
    (((mkAudioMatch exampleCue [] 3).needs_speedup = true ↔
        (3 : ℚ) > exampleCue.duration) ∧
      ((3 : ℚ) > exampleCue.duration →
        (mkAudioMatch exampleCue [] 3).speed_factor = 3 / exampleCue.duration) ∧
      (¬(3 : ℚ) > exampleCue.duration →
        (mkAudioMatch exampleCue [] 3).speed_factor = 1) ∧
      1 ≤ (mkAudioMatch exampleCue [] 3).speed_factor) :=
  C6_speed_factor_ge_one exampleCue [] 3 (by norm_num [exampleCue])

lemma atempoChain_of_two_lt {s : ℚ} (h : 2 < s) :
    atempoChain s = 2 :: atempoChain (s / 2) := by
  rw [atempoChain]
  simp [h]

lemma atempoChain_of_final {s : ℚ} (h1 : ¬2 < s) (h2 : ¬(0 < s ∧ s < 1 / 2)) :
    atempoChain s = [s] := by
  rw [atempoChain, dif_neg h1, dif_neg h2]

/-- For a factor greater than `1`, the chain is a block of `2.0` stages
followed by a single final stage in `(1, 2]`, and the factor is recovered
exactly as the product. -/
lemma atempoChain_spec (s : ℚ) (hs : 1 < s) :
    ∃ k r, atempoChain s = List.replicate k 2 ++ [r] ∧ 1 < r ∧ r ≤ 2 ∧
      s = 2 ^ k * r := by
  induction s using atempoChain.induct with
  | case1 s h ih =>
    have hs2 : 1 < s / 2 := by linarith
    obtain ⟨k, r, hchain, hr1, hr2, hprod⟩ := ih hs2
    refine ⟨k + 1, r, ?_, hr1, hr2, ?_⟩
    · rw [atempoChain_of_two_lt h, hchain]
      simp [List.replicate_succ]
    · rw [pow_succ]
      have : s / 2 = 2 ^ k * r := hprod
      field_simp at this ⊢
      linarith
  | case2 s h h2 ih =>
    exact absurd hs (by push_neg; linarith [h2.2])
  | case3 s h h2 =>
    refine ⟨0, s, ?_, hs, by linarith, by norm_num⟩
    rw [atempoChain_of_final h h2]
    simp

/-- C2: for every speed factor above `1`, every emitted stage lies in
`[0.5, 2.0]`, the product of the stages is exactly the factor (hence within
`1e-6` of it), and the chain is a block of `2.0` stages followed by one
final remainder stage; in particular the chain for `5.3` is
`[2.0, 2.0, 1.325]` with product `5.3`. -/
theorem C2_atempo_chain (s : ℚ) (hs : 1 < s) :
    (∃ k r, atempoChain s = List.replicate k 2 ++ [r] ∧ 1 < r ∧ r ≤ 2 ∧
      s = 2 ^ k * r) ∧
    (∀ x ∈ atempoChain s, 1 / 2 ≤ x ∧ x ≤ 2) ∧
    (atempoChain s).prod = s ∧
    |(atempoChain s).prod - s| ≤ 1 / 1000000 ∧
    atempoChain (53 / 10) = [2, 2, 53 / 40] ∧ (53 / 40 : ℚ) = 1.325 ∧
    (atempoChain (53 / 10)).prod = 53 / 10 := by
  obtain ⟨k, r, hchain, hr1, hr2, hprod⟩ := atempoChain_spec s hs
  have hbounds : ∀ x ∈ atempoChain s, 1 / 2 ≤ x ∧ x ≤ 2 := by
    intro x hx
    rw [hchain] at hx
    rcases List.mem_append.mp hx with hx2 | hxr
    · have : x = 2 := List.eq_of_mem_replicate hx2
      subst this
      norm_num
    · have : x = r := by simpa using hxr
      subst this
      constructor <;> linarith
  have hprodeq : (atempoChain s).prod = s := by
    rw [hchain, List.prod_append, List.prod_replicate, List.prod_singleton, hprod]
  have hex : atempoChain (53 / 10) = [2, 2, 53 / 40] := by
    rw [atempoChain_of_two_lt (by norm_num), atempoChain_of_two_lt (by norm_num),
      atempoChain_of_final (by norm_num) (by norm_num)]
    norm_num
  refine ⟨⟨k, r, hchain, hr1, hr2, hprod⟩, hbounds, hprodeq, ?_, hex, by norm_num, ?_⟩
  · rw [hprodeq]
    simp
  · rw [hex]
    norm_num

/-- Witness for C2 at the documented factor `5.3`. -/
theorem C2_atempo_chain_witness :
    (∃ k r, atempoChain (53 / 10) = List.replicate k 2 ++ [r] ∧ 1 < r ∧ r ≤ 2 ∧
      (53 / 10 : ℚ) = 2 ^ k * r) ∧
    (∀ x ∈ atempoChain (53 / 10), 1 / 2 ≤ x ∧ x ≤ 2) ∧
    (atempoChain (53 / 10)).prod = 53 / 10 ∧
    |(atempoChain (53 / 10)).prod - 53 / 10| ≤ 1 / 1000000 ∧
    atempoChain (53 / 10) = [2, 2, 53 / 40] ∧ (53 / 40 : ℚ) = 1.325 ∧
    (atempoChain (53 / 10)).prod = 53 / 10 :=
  C2_atempo_chain (53 / 10) (by norm_num)

lemma timelineWalk_eq_spec (t : ℚ) (ms : List AudioMatch)
    (h : ∀ m ∈ ms, ∃ p, m.processed_path = some p ∧ p ≠ []) :
    timelineWalk t ms = timelineSpec t ms := by
  induction ms generalizing t with
  | nil => rfl
  | cons m rest ih =>
    obtain ⟨p, hp, hpne⟩ := h m (List.mem_cons_self m rest)
    have hclip : clipSegs m = [Segment.clip (m.processed_path.getD [])] := by
      rw [clipSegs, hp]
      simp [hpne]
    unfold timelineWalk timelineSpec
    rw [hclip]
    simp only [List.zip_cons_cons, List.flatMap_cons]
    rw [ih m.subtitle.end_time (fun x hx => h x (List.mem_cons_of_mem m hx))]
    unfold timelineSpec
    simp [List.append_assoc]

/-- C1: the assembler sorts by cue start time, then before each match
inserts a silence of `gap = startTime - prevEnd` exactly when the gap
exceeds `0.01`, appends the processed clip, and advances the clock to the
cue's `endTime` (so the reference time before match `i+1` is match `i`'s
cue `endTime`, not `startTime` plus the clip length); for cues
`start = [0, 2, 5]`, `end = [1.5, 3, 6]` the emitted sequence is
`clip₁, 0.5s silence, clip₂, 2.0s silence, clip₃`. -/
theorem C1_create_timeline (ms : List AudioMatch)
    (h : ∀ m ∈ ms, ∃ p, m.processed_path = some p ∧ p ≠ []) :
    (List.Pairwise (fun a b : AudioMatch =>
        a.subtitle.start_time ≤ b.subtitle.start_time)
      (ms.mergeSort
        (fun a b => decide (a.subtitle.start_time ≤ b.subtitle.start_time))) ∧
    create_timeline_segments ms =
      timelineSpec 0 (ms.mergeSort
        (fun a b => decide (a.subtitle.start_time ≤ b.subtitle.start_time)))) ∧
    create_timeline_segments [exMatch1, exMatch2, exMatch3] =
      [Segment.clip ['p', '1'], Segment.silence (1 / 2), Segment.clip ['p', '2'],
        Segment.silence 2, Segment.clip ['p', '3']] := by
  constructor
  constructor
  · have hs := @List.sorted_mergeSort AudioMatch
      (fun a b => decide (a.subtitle.start_time ≤ b.subtitle.start_time))
      (fun a b c hab hbc => by
        simp only [decide_eq_true_eq] at *
        linarith)
      (fun a b => by
        simp only [Bool.or_eq_true, decide_eq_true_eq]
        exact le_total _ _) ms
    exact hs.imp (fun hxy => by simpa using hxy)
  · unfold create_timeline_segments
    exact timelineWalk_eq_spec 0 _
      (fun m hm => h m (List.mem_mergeSort.mp hm))
  · have hsorted : [exMatch1, exMatch2, exMatch3].mergeSort
        (fun a b => decide (a.subtitle.start_time ≤ b.subtitle.start_time)) =
        [exMatch1, exMatch2, exMatch3] := by
      apply List.mergeSort_of_sorted
      simp only [List.pairwise_cons, List.mem_cons, List.not_mem_nil, or_false,
        decide_eq_true_eq]
      refine ⟨fun a' ha' => ?_, fun a' ha' => ?_, ?_, ?_⟩
      · rcases ha' with rfl | rfl <;> norm_num [exMatch1, exMatch2, exMatch3]
      · rcases ha' with rfl
        norm_num [exMatch2, exMatch3]
      · intro a' ha'
        exact absurd ha' not_false
      · exact List.Pairwise.nil
    unfold create_timeline_segments
    rw [hsorted]
    unfold timelineWalk timelineWalk timelineWalk timelineWalk
    norm_num [exMatch1, exMatch2, exMatch3, clipSegs]
    simp

/-- Witness for C1 at the documented three-cue example. -/
theorem C1_create_timeline_witness :
    ((List.Pairwise (fun a b : AudioMatch =>
        a.subtitle.start_time ≤ b.subtitle.start_time)
      ([exMatch1, exMatch2, exMatch3].mergeSort
        (fun a b => decide (a.subtitle.start_time ≤ b.subtitle.start_time))) ∧
    create_timeline_segments [exMatch1, exMatch2, exMatch3] =
      timelineSpec 0 ([exMatch1, exMatch2, exMatch3].mergeSort
        (fun a b => decide (a.subtitle.start_time ≤ b.subtitle.start_time)))) ∧
    create_timeline_segments [exMatch1, exMatch2, exMatch3] =
      [Segment.clip ['p', '1'], Segment.silence (1 / 2), Segment.clip ['p', '2'],
        Segment.silence 2, Segment.clip ['p', '3']]) :=
  C1_create_timeline [exMatch1, exMatch2, exMatch3] (by
    intro m hm
    simp only [List.mem_cons, List.not_mem_nil, or_false] at hm
    rcases hm with rfl | rfl | rfl
    · exact ⟨['p', '1'], rfl, by simp⟩
    · exact ⟨['p', '2'], rfl, by simp⟩
    · exact ⟨['p', '3'], rfl, by simp⟩)

lemma escapeQuotes_no_newline (p : List Char) (h : newlineChar ∉ p) :
    newlineChar ∉ escapeQuotes p := by
  intro hmem
  obtain ⟨c, hc, hin⟩ := List.mem_flatMap.mp hmem
  by_cases hcq : c = quoteChar
  · rw [if_pos hcq] at hin
    simp only [List.mem_cons, List.not_mem_nil, or_false] at hin
    rcases hin with h1 | h1 | h1 | h1 <;> exact absurd h1 (by decide)
  · rw [if_neg hcq] at hin
    simp only [List.mem_singleton] at hin
    exact h (hin ▸ hc)

lemma manifestLineBody_no_newline (p : List Char) (h : newlineChar ∉ p) :
    ∀ x ∈ manifestLineBody p, ¬(x == newlineChar) = true := by
  intro x hx
  simp only [beq_iff_eq]
  intro hxeq
  subst hxeq
  unfold manifestLineBody at hx
  simp only [List.mem_cons, List.mem_append, List.mem_singleton] at hx
  rcases hx with h1 | h1 | h1 | h1 | h1 | h1 | h1 | h1
  · exact absurd h1 (by decide)
  · exact absurd h1 (by decide)
  · exact absurd h1 (by decide)
  · exact absurd h1 (by decide)
  · exact absurd h1 (by decide)
  · exact absurd h1 (by decide)
  · exact escapeQuotes_no_newline p h h1
  · exact absurd h1 (by decide)

/-- C8: splitting the generated manifest at newlines yields exactly one
line per segment file, in order, each of the form `file '<path with every
single quote escaped>'` (plus the empty tail after the final newline). -/
theorem C8_concat_manifest_lines (files : List (List Char))
    (h : ∀ p ∈ files, newlineChar ∉ p) :
    (concatManifest files).splitOn newlineChar =
      files.map manifestLineBody ++ [[]] := by
  induction files with
  | nil =>
    simp [concatManifest, List.splitOn]
  | cons p rest ih =>
    have hbody := manifestLineBody_no_newline p (h p (List.mem_cons_self p rest))
    have hstep : concatManifest (p :: rest) =
        manifestLineBody p ++ newlineChar :: concatManifest rest := by
      unfold concatManifest
      simp
    rw [hstep]
    unfold List.splitOn
    rw [List.splitOnP_first (fun x => x == newlineChar) (manifestLineBody p)
      hbody newlineChar (by simp) (concatManifest rest)]
    have ihx := ih (fun q hq => h q (List.mem_cons_of_mem p hq))
    unfold List.splitOn at ihx
    rw [ihx]
    simp

/-- Witness for C8: two segment files, one containing a single quote. -/
theorem C8_concat_manifest_lines_witness :
    (concatManifest [['a'], ['b', quoteChar, 'c']]).splitOn newlineChar =
      [['a'], ['b', quoteChar, 'c']].map manifestLineBody ++ [[]] :=
  C8_concat_manifest_lines [['a'], ['b', quoteChar, 'c']] (by
    intro p hp
    simp only [List.mem_cons, List.not_mem_nil, or_false] at hp
    rcases hp with rfl | rfl <;> decide)

lemma scanFiles_eq_filter_head (rep dir : List Char) (listing : List DirEntry) :
    scanFiles rep dir listing =
      ((listing.filter (locatorAccepts rep)).head?).map (fun e => pyJoin dir e.name) := by
  induction listing with
  | nil => rfl
  | cons e rest ih =>
    by_cases hf : e.isFile
    · by_cases hext : (splitext e.name).2.map Char.toLower ∈ audio_extensions
      · by_cases hexact : (splitext e.name).1 = rep
        · rw [scanFiles, if_pos hf, if_pos hext, if_pos hexact]
          have hacc : locatorAccepts rep e = true := by
            simp [locatorAccepts, hf, hext, hexact]
          rw [List.filter_cons_of_pos hacc]
          rfl
        · by_cases hsuf : (splitext e.name).1.take (rep.length + 1) = rep ++ ['_']
          · rw [scanFiles, if_pos hf, if_pos hext, if_neg hexact, if_pos hsuf]
            have hacc : locatorAccepts rep e = true := by
              simp [locatorAccepts, hf, hext, hsuf]
            rw [List.filter_cons_of_pos hacc]
            rfl
          · rw [scanFiles, if_pos hf, if_pos hext, if_neg hexact, if_neg hsuf]
            have hacc : locatorAccepts rep e = false := by
              simp [locatorAccepts, hexact, hsuf]
            rw [List.filter_cons_of_neg (by simp [hacc])]
            exact ih
      · rw [scanFiles, if_pos hf, if_neg hext]
        have hacc : locatorAccepts rep e = false := by
          simp [locatorAccepts, hext]
        rw [List.filter_cons_of_neg (by simp [hacc])]
        exact ih
    · rw [scanFiles, if_neg hf]
      have hacc : locatorAccepts rep e = false := by
        simp [locatorAccepts, hf]
      rw [List.filter_cons_of_neg (by simp [hacc])]
      exact ih

lemma findSome_head {α β γ : Type} (L : List α) (f : α → List β) (g : β → γ) :
    L.findSome? (fun a => ((f a).head?).map g) = ((L.flatMap f).head?).map g := by
  induction L with
  | nil => rfl
  | cons a t ih =>
    cases hfa : f a with
    | nil =>
      rw [List.findSome?_cons, List.flatMap_cons, hfa]
      simpa using ih
    | cons b bs =>
      rw [List.findSome?_cons, List.flatMap_cons, hfa]
      simp

/-- C5: method 1 of the locator returns exactly the first hit in
representation-major (4-digit, 3-digit, unpadded), listing-minor order
among regular files with whitelisted extensions matching the
representation exactly or as an underscore-separated stem; the glob
fallback runs only when that scan misses; and for index 7 over
`{0007.wav, 007_extra.wav}` the locator returns `0007.wav`. -/
theorem C5_find_audio_priority (idx : ℕ) (dir : List Char)
    (listing : List DirEntry) :
    (find_audio_method1 idx dir listing = locatorSpec idx dir listing) ∧
    (∀ p, find_audio_method1 idx dir listing = some p →
      find_audio_for_subtitle idx dir listing = some p) ∧
    find_audio_for_subtitle 7 "audio".toList
      [DirEntry.mk "0007.wav".toList true, DirEntry.mk "007_extra.wav".toList true] =
      some "audio/0007.wav".toList := by
  refine ⟨?_, ?_, ?_⟩
  · unfold find_audio_method1 locatorSpec
    rw [← findSome_head (index_formats idx) (fun rep => listing.filter (locatorAccepts rep))
      (fun e => pyJoin dir e.name)]
    congr 1
    funext rep
    exact scanFiles_eq_filter_head rep dir listing
  · intro p hp
    unfold find_audio_for_subtitle
    rw [hp]
  · decide

/-- Witness for C5: the bridging clause at the documented example. -/
theorem C5_find_audio_priority_witness :
    find_audio_for_subtitle 7 "audio".toList
      [DirEntry.mk "0007.wav".toList true, DirEntry.mk "007_extra.wav".toList true] =
      some "audio/0007.wav".toList :=
  (C5_find_audio_priority 7 "audio".toList
    [DirEntry.mk "0007.wav".toList true,
      DirEntry.mk "007_extra.wav".toList true]).2.1
    "audio/0007.wav".toList (by decide)

end GhepVoice
